import Mathlib

/-!
Shallow embedding of the position-dependent-obligation subsystem of the
vixl aarch32 macro-assembler (`src/a32/macro-assembler-a32.h`): literal
pool, literal-pool manager, veneer-pool manager, checkpoint/emission
guard, the conditional-execution synthesizer (ITScope), the recursion
guard, and the jump table.

Machine integers are modelled as `Nat` with explicit `% 2^32` where the
C++ unsigned arithmetic can wrap.  C++ object mutation is modelled by
explicit value passing: a function that mutates a literal or a label
returns the updated copy.  Types that the header only uses
(`RawLiteral`, `Label`, the out-of-line `PerformEnsureEmit` and
`ComputeCheckpoint`) are modelled from the specification and carry a
doc comment saying so.
-/

namespace Vixl

/-- `AlignUp(x, n)` from the vixl utility header: round `x` up to the
next multiple of `n`. -/
def alignUp (x n : Nat) : Nat := ((x + n - 1) / n) * n

/-- `AlignDown(x, n)` from the vixl utility header: round `x` down to a
multiple of `n`. -/
def alignDown (x n : Nat) : Nat := (x / n) * n

/-- Maximum size in bytes of one aarch32 instruction (A32, or a wide T32
encoding): the branch-sized margin reserved around pools. -/
def kMaxInstructionSizeInBytes : Nat := 4

/-- Size in bytes of a narrow (16-bit) T32 instruction. -/
def k16BitT32InstructionSizeInBytes : Nat := 2

/-- Modelled from the spec: worst-case byte size reserved for the
instruction wrapped by the conditional-execution synthesizer
(`kMaxT32MacroInstructionSizeInBytes`, defined outside this header). -/
def kMaxT32MacroInstructionSizeInBytes : Nat := 32

/-- `Label::kMaxOffset`, the unconstrained sentinel offset (the largest
value of the 32-bit signed `Label::Offset` type). -/
def kMaxOffset : Nat := 0x7fffffff

/-- `RawLiteral`'s deletion policies (`RawLiteral` is declared in a
header outside `src/`; the enumerators are named in `LiteralPool::Clear`). -/
inductive DeletionPolicy where
  | kDeletedOnPlacementByPool
  | kDeletedOnPoolDestruction
  | kManuallyDeleted
deriving DecidableEq, Repr

/-- Modelled from the spec: a `RawLiteral` (declared outside `src/`) has
a byte size, a position-in-pool field (sentinel `kMaxOffset` until it is
placed in a pool), a cached checkpoint, the forward distance of its last
inserting instruction, a deletion policy, and the checkpoints of the
instructions that reference it. -/
structure RawLiteral where
  size : Nat
  positionInPool : Nat
  checkpoint : Nat
  lastInsertForwardDistance : Nat
  deletionPolicy : DeletionPolicy
  refCheckpoints : List Nat
deriving DecidableEq, Repr

/-- Modelled from the spec: `RawLiteral::GetAlignedSize` — the byte size
rounded up to the pool's 4-byte alignment. -/
def RawLiteral.alignedSize (l : RawLiteral) : Nat := alignUp l.size 4

/-- Modelled from the spec: `RawLiteral::UpdateCheckpoint` recomputes
the literal's own checkpoint from all instructions that reference it so
far (the nearest, i.e. minimum, of their checkpoints). -/
def RawLiteral.UpdateCheckpoint (l : RawLiteral) : RawLiteral :=
  { l with checkpoint := l.refCheckpoints.foldr min kMaxOffset }

/-- Modelled from the spec: `RawLiteral::GetAlignedCheckpoint(4)` — the
checkpoint rounded down so that a 4-aligned placement still meets it. -/
def RawLiteral.alignedCheckpoint (l : RawLiteral) : Nat :=
  alignDown l.checkpoint 4

/-- Modelled from the spec:
`RawLiteral::InvalidateLastForwardReference` discards the bookkeeping of
the literal's most recent forward reference. -/
def RawLiteral.InvalidateLastForwardReference (l : RawLiteral) : RawLiteral :=
  { l with refCheckpoints := l.refCheckpoints.dropLast }

/-- `LiteralPool` (macro-assembler-a32.h, lines 42–105): ordered
container of unplaced literals.  `deleted` is a ghost field recording
the literals the pool has `delete`'d, so that deletion-policy claims can
be stated; it has no counterpart in the C++ state. -/
structure LiteralPool where
  size : Nat
  literals : List RawLiteral
  keepUntilDelete : List RawLiteral
  deleted : List RawLiteral
deriving DecidableEq, Repr

/-- `LiteralPool()` constructor: starts with size 0 and no literals. -/
def LiteralPool.empty : LiteralPool := ⟨0, [], [], []⟩

/-- `LiteralPool::AddLiteral`: stamp the literal's position with the
current pool size, append it at the tail, and advance the size by the
literal's aligned size.  Returns the updated pool and the stamped
literal (the C++ mutates the literal in place). -/
def LiteralPool.AddLiteral (p : LiteralPool) (literal : RawLiteral) :
    LiteralPool × RawLiteral :=
  let position := p.size
  let literal := { literal with positionInPool := position }
  ({ p with
      literals := p.literals ++ [literal]
      size := p.size + literal.alignedSize },
   literal)

/-- `LiteralPool::Clear`: walk the literals applying each one's deletion
policy (placement-deleted literals are `delete`'d — recorded in the
ghost `deleted` list; pool-destruction literals move to
`keep_until_delete_`; manually-deleted literals are untouched), then
empty the container and reset the size to 0. -/
def LiteralPool.Clear (p : LiteralPool) : LiteralPool :=
  { size := 0
    literals := []
    keepUntilDelete := p.keepUntilDelete ++
      p.literals.filter (fun l => l.deletionPolicy = .kDeletedOnPoolDestruction)
    deleted := p.deleted ++
      p.literals.filter (fun l => l.deletionPolicy = .kDeletedOnPlacementByPool) }

/-- The pool's documented invariant: the reported size is the sum of the
aligned sizes of the literals currently in the pool. -/
def poolSizeInv (p : LiteralPool) : Prop :=
  p.size = (p.literals.map RawLiteral.alignedSize).sum

/-- `MacroAssembler::LiteralPoolManager` (lines 248–300): owns the pool
and a cached checkpoint (sentinel `Label::kMaxOffset` when invalid). -/
structure LiteralPoolManager where
  pool : LiteralPool
  checkpoint : Nat
deriving DecidableEq, Repr

/-- `LiteralPoolManager::ResetCheckpoint`: back to the sentinel. -/
def LiteralPoolManager.ResetCheckpoint (m : LiteralPoolManager) :
    LiteralPoolManager :=
  { m with checkpoint := kMaxOffset }

/-- `LiteralPoolManager::GetCheckpoint`: the cached checkpoint minus
room for a branch over the pools. -/
def LiteralPoolManager.GetCheckpoint (m : LiteralPoolManager) : Nat :=
  m.checkpoint - kMaxInstructionSizeInBytes

/-- `LiteralPoolManager::IsInsertTooFar` (lines 265–272): with `uint32_t`
arithmetic, take the nearer of `from + lastInsertForwardDistance` and
the literal's own checkpoint, align it down to 4, and compare against
`from + pool size + kMaxInstructionSizeInBytes`. -/
def LiteralPoolManager.IsInsertTooFar (m : LiteralPoolManager)
    (literal : RawLiteral) (fromOffset : Nat) : Bool :=
  let checkpoint := (fromOffset + literal.lastInsertForwardDistance) % 2 ^ 32
  let checkpoint := min checkpoint (literal.checkpoint % 2 ^ 32)
  alignDown checkpoint 4 <
    (fromOffset + m.pool.size + kMaxInstructionSizeInBytes) % 2 ^ 32

/-- `LiteralPoolManager::UpdateCheckpoint` (lines 275–287): refresh the
literal's own checkpoint, derive the pool-relative bound
`alignedCheckpoint - positionInPool`, and adopt it when it tightens the
cached checkpoint.  The returned flag records whether the masm-level
`ComputeCheckpoint` was triggered. -/
def LiteralPoolManager.UpdateCheckpoint (m : LiteralPoolManager)
    (literal : RawLiteral) : LiteralPoolManager × RawLiteral × Bool :=
  let literal := literal.UpdateCheckpoint
  let tmp := literal.alignedCheckpoint - literal.positionInPool
  if m.checkpoint > tmp then ({ m with checkpoint := tmp }, literal, true)
  else (m, literal, false)

/-- `LiteralPoolManager::AddLiteral`: delegate to the pool. -/
def LiteralPoolManager.AddLiteral (m : LiteralPoolManager)
    (literal : RawLiteral) : LiteralPoolManager × RawLiteral :=
  let (pool, literal) := m.pool.AddLiteral literal
  ({ m with pool := pool }, literal)

/-- A forward reference held by an unbound `Label` (the `Label` class is
declared outside `src/`): its checkpoint and whether it is a branch
reference.  Modelled from the spec. -/
structure ForwardReference where
  checkpoint : Nat
  isBranch : Bool
deriving DecidableEq, Repr

/-- Modelled from the spec: a `Label` is either bound (fixed location)
or unbound (accumulating forward references); it carries a
veneer-pool-membership flag, a cached checkpoint, and an identity `id`
standing for the C++ object's address (the veneer pool stores label
pointers). -/
structure Label where
  id : Nat
  bound : Bool
  location : Nat
  inVeneerPool : Bool
  checkpoint : Nat
  refs : List ForwardReference
deriving DecidableEq, Repr

/-- Modelled from the spec: the label's nearest (minimum)
forward-reference checkpoint, `kMaxOffset` when there is none. -/
def Label.nearestRefCheckpoint (l : Label) : Nat :=
  (l.refs.map ForwardReference.checkpoint).foldr min kMaxOffset

/-- Modelled from the spec: `Label::UpdateCheckpoint` recomputes the
cached checkpoint as the nearest forward-reference checkpoint. -/
def Label.UpdateCheckpoint (l : Label) : Label :=
  { l with checkpoint := l.nearestRefCheckpoint }

/-- Mark the last forward reference of a list as a branch reference. -/
def setLastBranch : List ForwardReference → List ForwardReference
  | [] => []
  | [r] => [{ r with isBranch := true }]
  | r :: rs => r :: setLastBranch rs

/-- `label->GetBackForwardRef().SetIsBranch()`: mark the label's most
recent forward reference as a branch reference (modelled from the spec;
the C++ mutates the last list element in place). -/
def Label.setBackIsBranch (l : Label) : Label :=
  { l with refs := setLastBranch l.refs }

/-- `MacroAssembler::VeneerPoolManager` (lines 302–338): the list of
unbound branch-target labels (by identity) and a cached checkpoint. -/
structure VeneerPoolManager where
  labels : List Nat
  checkpoint : Nat
deriving DecidableEq, Repr

/-- `VeneerPoolManager::AddLabel` (lines 313–326): insert the label in
the pool unless its membership flag is already set, mark its most
recent forward reference as a branch, refresh the label's checkpoint,
and adopt it when it tightens the cached checkpoint.  The returned flag
records whether the masm-level `ComputeCheckpoint` was triggered. -/
def VeneerPoolManager.AddLabel (vm : VeneerPoolManager) (label : Label) :
    VeneerPoolManager × Label × Bool :=
  let (vm, label) :=
    if !label.inVeneerPool then
      ({ vm with labels := vm.labels ++ [label.id] },
       { label with inVeneerPool := true })
    else (vm, label)
  let label := label.setBackIsBranch
  let label := label.UpdateCheckpoint
  let tmp := label.checkpoint
  if vm.checkpoint > tmp then ({ vm with checkpoint := tmp }, label, true)
  else (vm, label, false)

/-- `MacroAssembler::EmitOption`. -/
inductive EmitOption where
  | kBranchRequired
  | kNoBranchRequired
deriving DecidableEq, Repr

/-- Ghost log entries for the buffer-affecting actions of the
macro-assembler, used to state frame conditions (what a call did or did
not write). -/
inductive MEvent where
  | rewind (target : Nat)
  | poolBranch
  | alignBuf
  | placeLit (l : RawLiteral)
  | bindAfter
  | veneers (n : Nat)
deriving DecidableEq, Repr

/-- The macro-assembler state visible to the embedded operations: the
encoding mode, the buffer cursor, a ghost trace of buffer writes, the
two pool managers (the veneer pool reduced to its checkpoint), the
cached assembler checkpoint, and a ghost count of raw encoder
invocations. -/
structure MState where
  isT32 : Bool
  cursor : Nat
  trace : List MEvent
  litMgr : LiteralPoolManager
  veneerCheckpoint : Nat
  checkpoint : Nat
  emitCount : Nat
deriving DecidableEq, Repr

/-- `GetArchitectureStatePCOffset()`: the PC reads 4 bytes ahead in T32
state and 8 bytes ahead in A32 state. -/
def MState.pcOffset (s : MState) : Nat := if s.isT32 then 4 else 8

/-- Modelled from the spec: `MacroAssembler::ComputeCheckpoint`
(declared at line 443, defined outside `src/`) recomputes the cached
assembler checkpoint as the nearer of the two managers' checkpoints,
each already including the branch-sized margin. -/
def MState.ComputeCheckpoint (s : MState) : MState :=
  { s with
      checkpoint :=
        min s.litMgr.GetCheckpoint
          (s.veneerCheckpoint - kMaxInstructionSizeInBytes) }

/-- One `place(*it)` step of the pool-emission loop: write the
literal's (aligned) payload at the cursor. -/
def MState.placeLiteral (t : MState) (l : RawLiteral) : MState :=
  { t with
      cursor := t.cursor + l.alignedSize
      trace := t.trace ++ [MEvent.placeLit l] }

/-- `MacroAssembler::EmitLiteralPool(LiteralPool*, EmitOption)`
(lines 459–486): when the pool is non-empty, optionally emit a branch
over the pool, align the buffer, place every literal in insertion
order, bind the branch-around label, and clear the pool.  An empty pool
does nothing.  The emitted branch is modelled as advancing the cursor
by `kMaxInstructionSizeInBytes` (the space `EnsureSpaceFor` reserves). -/
def MState.EmitLiteralPoolHere (s : MState) (option : EmitOption) : MState :=
  if s.litMgr.pool.size > 0 then
    let s1 :=
      if option = .kBranchRequired then
        { s with
            cursor := s.cursor + kMaxInstructionSizeInBytes
            trace := s.trace ++ [MEvent.poolBranch] }
      else s
    let s2 := { s1 with
        cursor := alignUp s1.cursor 4
        trace := s1.trace ++ [MEvent.alignBuf] }
    let s3 := s.litMgr.pool.literals.foldl MState.placeLiteral s2
    let s4 :=
      if option = .kBranchRequired then
        { s3 with trace := s3.trace ++ [MEvent.bindAfter] }
      else s3
    { s4 with litMgr := { s4.litMgr with pool := s4.litMgr.pool.Clear } }
  else s

/-- `MacroAssembler::EmitLiteralPool(EmitOption)` (lines 487–491): emit
the managed pool, reset the manager checkpoint to the sentinel, and
recompute the assembler checkpoint. -/
def MState.EmitLiteralPool (s : MState) (option : EmitOption) : MState :=
  let s := s.EmitLiteralPoolHere option
  let s := { s with litMgr := s.litMgr.ResetCheckpoint }
  s.ComputeCheckpoint

/-- Masm-level wrapper for `LiteralPoolManager::UpdateCheckpoint`: apply
the manager update and run `ComputeCheckpoint` when it asked for it. -/
def MState.UpdateLitCheckpoint (s : MState) (literal : RawLiteral) :
    MState × RawLiteral :=
  let (mgr, literal, triggered) := s.litMgr.UpdateCheckpoint literal
  let s := { s with litMgr := mgr }
  (if triggered then s.ComputeCheckpoint else s, literal)

/-- The tail of `GenerateInstruction` (lines 362–365): register the
literal in the pool when it has no position yet, then refresh the
checkpoints. -/
def MState.RegisterLiteral (s : MState) (literal : RawLiteral) :
    MState × RawLiteral :=
  let p :=
    if literal.positionInPool = kMaxOffset then
      let (mgr, literal) := s.litMgr.AddLiteral literal
      ({ s with litMgr := mgr }, literal)
    else (s, literal)
  p.1.UpdateLitCheckpoint p.2

/-- `MacroAssembler::GenerateInstruction` (lines 349–366), parametric in
the per-mnemonic callback `emit` (the `T::emit` raw encoder call):
encode speculatively; if the literal's reference is now too far, rewind
the cursor to its pre-emission value, invalidate the literal's last
forward reference, flush the pool with a branch-around, and re-encode
once; finally register the literal if it is not yet in the pool and
refresh the checkpoints. -/
def MState.GenerateInstruction
    (emit : MState → RawLiteral → MState × RawLiteral)
    (s : MState) (literal : RawLiteral) : MState × RawLiteral :=
  let cursor := s.cursor
  let whereRef := cursor + s.pcOffset
  let p1 := emit s literal
  let p2 :=
    if p1.1.litMgr.IsInsertTooFar p1.2 whereRef then
      let sr := { p1.1 with
          cursor := cursor
          trace := p1.1.trace ++ [MEvent.rewind cursor] }
      let li := p1.2.InvalidateLastForwardReference
      emit (sr.EmitLiteralPool .kBranchRequired) li
    else p1
  p2.1.RegisterLiteral p2.2

/-- Modelled from the spec: `MacroAssembler::PerformEnsureEmit`
(declared at line 340, defined outside `src/`) performs the forced
flush: flush the literal pool with a branch-around, emit the veneer
pool's relays and reset its checkpoint, then recompute the assembler
checkpoint from whatever obligations remain.  The pending-label list of
the veneer pool is not part of `MState`, so the relay bytes themselves
are outside the model; the ghost `.veneers` event marks their emission. -/
def MState.PerformEnsureEmit (s : MState) (_target _size : Nat) : MState :=
  let s := s.EmitLiteralPool .kBranchRequired
  let s := { s with
      trace := s.trace ++ [MEvent.veneers 0]
      veneerCheckpoint := kMaxOffset }
  s.ComputeCheckpoint

/-- `MacroAssembler::EnsureEmitFor` (lines 445–449): no action while the
4-aligned target stays strictly below the cached checkpoint; otherwise
take the forced-flush path. -/
def MState.EnsureEmitFor (s : MState) (size : Nat) : MState :=
  let target := alignUp (s.cursor + size) 4
  if target < s.checkpoint then s else s.PerformEnsureEmit target size

/-- Conditions are modelled by their 4-bit aarch32 encoding;
`al` (always) is 14. -/
def al : Nat := 14

/-- `Condition::Negate`: invert a condition by flipping its low bit
(eq↔ne, lt↔ge, …); not applicable to `al`. -/
def negateCond (cond : Nat) : Nat := cond ^^^ 1

/-- The actions of the conditional-execution synthesizer
(`MacroAssembler::ITScope`, lines 149–189), recorded as a trace around
the wrapped instruction. -/
inductive ITEvent where
  | ensureEmit (size : Nat)
  | emitIT (cond : Nat)
  | emitB (cond : Nat) (label : Nat)
  | body (cond : Nat)
  | bindLabel (label : Nat)
deriving DecidableEq, Repr

/-- `ITScope`'s constructor (lines 151–172): on T32 with a real
condition, either emit the IT prefix (legal combination) or reserve
worst-case space, emit a branch with the inverted condition to the
fresh local label, and rewrite the wrapped instruction's condition to
`al`.  Returns the emitted events and the condition the wrapped
instruction will use. -/
def ITScopeEnter (isT32 canUseIt : Bool) (cond : Nat) (label : Nat) :
    List ITEvent × Nat :=
  if cond ≠ al ∧ isT32 then
    if canUseIt then ([ITEvent.emitIT cond], cond)
    else
      ([ITEvent.ensureEmit
          (k16BitT32InstructionSizeInBytes + kMaxT32MacroInstructionSizeInBytes),
        ITEvent.emitB (negateCond cond) label],
       al)
  else ([], cond)

/-- `ITScope`'s destructor (lines 173–179): on the deprecated-IT path,
check (debug-only) that the wrapped region stayed within the reserved
worst-case size and bind the local label.  Returns the emitted events
and the outcome of the debug assertion. -/
def ITScopeExit (isT32 canUseIt : Bool) (cond : Nat) (label : Nat)
    (regionSize : Nat) : List ITEvent × Bool :=
  if cond ≠ al ∧ isT32 ∧ ¬canUseIt then
    ([ITEvent.bindLabel label],
     regionSize ≤ kMaxT32MacroInstructionSizeInBytes)
  else ([], true)

/-- One conditionally executed macro call under an `ITScope`: the
constructor's events, the wrapped instruction (with the possibly
rewritten condition), then the destructor's events.  `regionSize` is
the cursor distance covered by the wrapped instruction. -/
def ITScopeRun (isT32 canUseIt : Bool) (cond : Nat) (label : Nat)
    (regionSize : Nat) : List ITEvent × Bool :=
  let enter := ITScopeEnter isT32 canUseIt cond label
  let exit := ITScopeExit isT32 canUseIt cond label regionSize
  (enter.1 ++ [ITEvent.body enter.2] ++ exit.1, exit.2)

/-- `MacroAssemblerContext::kMaxRecursion`. -/
def kMaxRecursion : Nat := 5

/-- `MacroAssemblerContext::Up` (lines 121–124): increment the recursion
counter; the `VIXL_CHECK` makes reaching the limit a fatal,
non-recoverable failure, modelled as `none`. -/
def contextUp (count : Nat) : Option Nat :=
  let count := count + 1
  if count < kMaxRecursion then some count else none

/-- `MacroAssemblerContext::Down` (lines 125–128): decrement the
recursion counter. -/
def contextDown (count : Nat) : Nat := count - 1

/-- `ContextScope` entry (lines 137–140): `Up` on the assembler's
context. -/
def contextScopeEnter (count : Nat) : Option Nat := contextUp count

/-- `ContextScope` exit (line 141): `Down` on the assembler's
context. -/
def contextScopeExit (count : Nat) : Nat := contextDown count

/-- `JumpTableBase` (lines 8296–8361): table and dispatch-branch
locations, length, entry byte width, the presence bits, and the default
and end labels.  The table slots themselves live in the code buffer and
are modelled separately as a `List Int` (slot `i` covers the bytes at
`tableLocation + i * entryBytes`). -/
structure JumpTableBase where
  tableLocation : Nat
  branchLocation : Nat
  length : Nat
  entryBytes : Nat
  presence : List Bool
  defaultLabel : Label
  endLabel : Label
deriving DecidableEq, Repr

/-- The value `JumpTable<T>::Link` stores in a slot: the signed offset
from the dispatch branch to `location`, arithmetically shifted right by
1 (T32) or 2 (A32), truncated to the unsigned entry width. -/
def linkValue (isT32 : Bool) (entryBytes : Nat) (branchLocation : Nat)
    (location : Nat) : Int :=
  let offset : Int := (location : Int) - (branchLocation : Int)
  let v : Int := if isT32 then Int.fdiv offset 2 else Int.fdiv offset 4
  Int.emod v (2 ^ (8 * entryBytes))

/-- `JumpTable<T>::Link` (lines 8372–8382): write the shift-encoded
offset from the dispatch branch to `location` into the slot of
`caseIndex`. -/
def JumpTableBase.Link (jt : JumpTableBase) (isT32 : Bool)
    (table : List Int) (caseIndex : Nat) (location : Nat) : List Int :=
  table.set caseIndex (linkValue isT32 jt.entryBytes jt.branchLocation location)

/-- `JumpTableBase::Finalize` (lines 8332–8339): bind the default label
at the current cursor if it was never explicitly bound, bind the end
label, then link every case whose presence bit was never set to the
default label's location. -/
def JumpTableBase.Finalize (jt : JumpTableBase) (isT32 : Bool)
    (cursor : Nat) (table : List Int) : JumpTableBase × List Int :=
  let defaultLabel :=
    if jt.defaultLabel.bound then jt.defaultLabel
    else { jt.defaultLabel with bound := true, location := cursor }
  let jt := { jt with
      defaultLabel := defaultLabel
      endLabel := { jt.endLabel with bound := true, location := cursor } }
  let notSet := (List.range jt.length).filter
    (fun i => !(jt.presence.getD i false))
  (jt,
   notSet.foldl (fun t i => jt.Link isT32 t i jt.defaultLabel.location) table)

/-! ## Supporting lemmas -/

theorem alignDown_le (x n : Nat) : alignDown x n ≤ x :=
  Nat.div_mul_le_self x n

theorem le_alignUp (x : Nat) : x ≤ alignUp x 4 := by
  unfold alignUp
  omega

/-- Under the size invariant, a pool of positive-size literals with
reported size 0 holds no literals. -/
theorem literals_nil_of_size_zero (p : LiteralPool) (hInv : poolSizeInv p)
    (hpos : ∀ l ∈ p.literals, 0 < l.size) (h0 : p.size = 0) :
    p.literals = [] := by
  cases hlit : p.literals with
  | nil => rfl
  | cons a as =>
    exfalso
    have ha : 0 < a.size := hpos a (by simp [hlit])
    have haa : a.size ≤ a.alignedSize := le_alignUp a.size
    have hs := hInv
    rw [poolSizeInv, hlit] at hs
    simp only [List.map_cons, List.sum_cons] at hs
    omega

theorem placeFoldl_litMgr (ls : List RawLiteral) (t : MState) :
    (ls.foldl MState.placeLiteral t).litMgr = t.litMgr := by
  induction ls generalizing t with
  | nil => rfl
  | cons a as ih => simpa [MState.placeLiteral] using ih (t.placeLiteral a)

theorem placeFoldl_emitCount (ls : List RawLiteral) (t : MState) :
    (ls.foldl MState.placeLiteral t).emitCount = t.emitCount := by
  induction ls generalizing t with
  | nil => rfl
  | cons a as ih => simpa [MState.placeLiteral] using ih (t.placeLiteral a)

theorem emitLiteralPoolHere_litMgr_pos (s : MState) (option : EmitOption)
    (h : 0 < s.litMgr.pool.size) :
    (s.EmitLiteralPoolHere option).litMgr =
      { s.litMgr with pool := s.litMgr.pool.Clear } := by
  unfold MState.EmitLiteralPoolHere
  rw [if_pos h]
  rcases option with _ | _ <;> simp [placeFoldl_litMgr]

theorem emitLiteralPool_emitCount (s : MState) (option : EmitOption) :
    (s.EmitLiteralPool option).emitCount = s.emitCount := by
  unfold MState.EmitLiteralPool MState.EmitLiteralPoolHere
      MState.ComputeCheckpoint LiteralPoolManager.ResetCheckpoint
  split
  · rcases option with _ | _ <;> simp [placeFoldl_emitCount]
  · rfl

theorem registerLiteral_emitCount (s : MState) (literal : RawLiteral) :
    (s.RegisterLiteral literal).1.emitCount = s.emitCount := by
  unfold MState.RegisterLiteral MState.UpdateLitCheckpoint
      LiteralPoolManager.UpdateCheckpoint LiteralPoolManager.AddLiteral
      LiteralPool.AddLiteral MState.ComputeCheckpoint
  split_ifs <;> (dsimp only; repeat split) <;> rfl

/-! ## Claims -/

/-- C1: `LiteralPoolManager::IsInsertTooFar(literal, from)` returns true
exactly when the 4-aligned-down value of
`min(from + lastInsertForwardDistance, literal checkpoint)` is strictly
below `from + pool size + kMaxInstructionSizeInBytes`, and when it
answers "not too far" the padded pool plus the branch margin indeed
fits below the nearer checkpoint. -/
theorem isInsertTooFar_spec (m : LiteralPoolManager) (literal : RawLiteral)
    (fromOffset : Nat)
    (h1 : fromOffset + literal.lastInsertForwardDistance < 2 ^ 32)
    (h2 : literal.checkpoint < 2 ^ 32)
    (h3 : fromOffset + m.pool.size + kMaxInstructionSizeInBytes < 2 ^ 32) :
    (m.IsInsertTooFar literal fromOffset = true ↔
      alignDown
          (min (fromOffset + literal.lastInsertForwardDistance)
            literal.checkpoint) 4 <
        fromOffset + m.pool.size + kMaxInstructionSizeInBytes) ∧
    (m.IsInsertTooFar literal fromOffset = false →
      fromOffset + m.pool.size + kMaxInstructionSizeInBytes ≤
        min (fromOffset + literal.lastInsertForwardDistance)
          literal.checkpoint) := by
  have hiff : m.IsInsertTooFar literal fromOffset = true ↔
      alignDown
          (min (fromOffset + literal.lastInsertForwardDistance)
            literal.checkpoint) 4 <
        fromOffset + m.pool.size + kMaxInstructionSizeInBytes := by
    unfold LiteralPoolManager.IsInsertTooFar
    rw [Nat.mod_eq_of_lt h1, Nat.mod_eq_of_lt h2, Nat.mod_eq_of_lt h3]
    simp
  refine ⟨hiff, fun hfalse => ?_⟩
  have hnot :
      ¬ alignDown
          (min (fromOffset + literal.lastInsertForwardDistance)
            literal.checkpoint) 4 <
        fromOffset + m.pool.size + kMaxInstructionSizeInBytes := by
    intro hcontra
    rw [← hiff] at hcontra
    rw [hfalse] at hcontra
    exact Bool.false_ne_true hcontra
  have hge := Nat.le_of_not_lt hnot
  exact le_trans hge (alignDown_le _ 4)

/-- Witness for C1 at a concrete manager, literal, and offset. -/
theorem isInsertTooFar_spec_witness :
    (100 + 100 < 2 ^ 32 ∧ 120 < 2 ^ 32 ∧
      100 + 8 + kMaxInstructionSizeInBytes < 2 ^ 32) ∧
    ((LiteralPoolManager.IsInsertTooFar ⟨⟨8, [], [], []⟩, 200⟩
        ⟨4, kMaxOffset, 120, 100, .kManuallyDeleted, []⟩ 100 = true ↔
      alignDown (min (100 + 100) 120) 4 <
        100 + 8 + kMaxInstructionSizeInBytes) ∧
    (LiteralPoolManager.IsInsertTooFar ⟨⟨8, [], [], []⟩, 200⟩
        ⟨4, kMaxOffset, 120, 100, .kManuallyDeleted, []⟩ 100 = false →
      100 + 8 + kMaxInstructionSizeInBytes ≤ min (100 + 100) 120)) :=
  ⟨⟨by decide, by decide, by decide⟩,
   isInsertTooFar_spec ⟨⟨8, [], [], []⟩, 200⟩
     ⟨4, kMaxOffset, 120, 100, .kManuallyDeleted, []⟩ 100
     (by decide) (by decide) (by decide)⟩

/-- C3: `EnsureEmitFor(size)` leaves the state entirely unchanged while
`AlignUp(cursor + size, 4)` is strictly below the cached checkpoint,
and takes the forced-flush path `PerformEnsureEmit` otherwise. -/
theorem ensureEmitFor_spec (s : MState) (size : Nat) :
    (alignUp (s.cursor + size) 4 < s.checkpoint →
      s.EnsureEmitFor size = s) ∧
    (s.checkpoint ≤ alignUp (s.cursor + size) 4 →
      s.EnsureEmitFor size =
        s.PerformEnsureEmit (alignUp (s.cursor + size) 4) size) := by
  constructor
  · intro h
    unfold MState.EnsureEmitFor
    rw [if_pos h]
  · intro h
    unfold MState.EnsureEmitFor
    rw [if_neg (Nat.not_lt.mpr h)]

/-- Witness for C3: a roomy checkpoint gives no action; a tight one
takes the forced path. -/
theorem ensureEmitFor_spec_witness :
    (alignUp (0 + 4) 4 < 1000 ∧
      MState.EnsureEmitFor ⟨true, 0, [], ⟨LiteralPool.empty, kMaxOffset⟩,
        kMaxOffset, 1000, 0⟩ 4 =
        ⟨true, 0, [], ⟨LiteralPool.empty, kMaxOffset⟩, kMaxOffset, 1000, 0⟩) ∧
    ((2 : Nat) ≤ alignUp (0 + 4) 4 ∧
      MState.EnsureEmitFor ⟨true, 0, [], ⟨LiteralPool.empty, kMaxOffset⟩,
        kMaxOffset, 2, 0⟩ 4 =
        MState.PerformEnsureEmit ⟨true, 0, [], ⟨LiteralPool.empty, kMaxOffset⟩,
          kMaxOffset, 2, 0⟩ (alignUp (0 + 4) 4) 4) :=
  ⟨⟨by decide,
    (ensureEmitFor_spec ⟨true, 0, [], ⟨LiteralPool.empty, kMaxOffset⟩,
      kMaxOffset, 1000, 0⟩ 4).1 (by decide)⟩,
   ⟨by decide,
    (ensureEmitFor_spec ⟨true, 0, [], ⟨LiteralPool.empty, kMaxOffset⟩,
      kMaxOffset, 2, 0⟩ 4).2 (by decide)⟩⟩

/-- C5: the pool's size invariant — reported size equals the sum of the
aligned sizes of the contained literals — holds of the fresh pool and is
preserved by `AddLiteral` (which appends at the tail, stamps the
position with the size current at that moment, and advances the size by
the aligned size) and by `Clear` (which empties the pool and resets the
size to 0). -/
theorem literalPool_size_invariant :
    (poolSizeInv LiteralPool.empty ∧ LiteralPool.empty.size = 0) ∧
    (∀ (p : LiteralPool) (l : RawLiteral), poolSizeInv p →
      poolSizeInv (p.AddLiteral l).1 ∧
      (p.AddLiteral l).1.literals = p.literals ++ [(p.AddLiteral l).2] ∧
      (p.AddLiteral l).2.positionInPool = p.size ∧
      (p.AddLiteral l).1.size = p.size + l.alignedSize) ∧
    (∀ p : LiteralPool,
      (p.Clear).size = 0 ∧ (p.Clear).literals = [] ∧ poolSizeInv p.Clear) := by
  refine ⟨⟨rfl, rfl⟩, fun p l hInv => ?_, fun p => ⟨rfl, rfl, rfl⟩⟩
  unfold poolSizeInv at hInv ⊢
  unfold LiteralPool.AddLiteral
  simp [RawLiteral.alignedSize, hInv]

/-- Witness for C5 at the empty pool and a concrete literal. -/
theorem literalPool_size_invariant_witness :
    poolSizeInv LiteralPool.empty ∧
    (poolSizeInv (LiteralPool.empty.AddLiteral
        ⟨4, kMaxOffset, 120, 100, .kManuallyDeleted, []⟩).1 ∧
      (LiteralPool.empty.AddLiteral
          ⟨4, kMaxOffset, 120, 100, .kManuallyDeleted, []⟩).1.literals =
        LiteralPool.empty.literals ++ [(LiteralPool.empty.AddLiteral
          ⟨4, kMaxOffset, 120, 100, .kManuallyDeleted, []⟩).2] ∧
      (LiteralPool.empty.AddLiteral
          ⟨4, kMaxOffset, 120, 100, .kManuallyDeleted, []⟩).2.positionInPool =
        LiteralPool.empty.size ∧
      (LiteralPool.empty.AddLiteral
          ⟨4, kMaxOffset, 120, 100, .kManuallyDeleted, []⟩).1.size =
        LiteralPool.empty.size +
          RawLiteral.alignedSize ⟨4, kMaxOffset, 120, 100, .kManuallyDeleted, []⟩) :=
  ⟨rfl,
   literalPool_size_invariant.2.1 LiteralPool.empty
     ⟨4, kMaxOffset, 120, 100, .kManuallyDeleted, []⟩ rfl⟩

/-- C8: every `ContextScope` entry increments the per-assembler
recursion counter and its exit decrements it; under the limit an
entry/exit pair leaves the counter unchanged, and an entry that reaches
the `kMaxRecursion` (= 5) limit is a fatal, non-recoverable check
failure (no successor state exists). -/
theorem contextScope_guard (count : Nat) :
    (count + 1 < kMaxRecursion →
      contextScopeEnter count = some (count + 1) ∧
      contextScopeExit (count + 1) = count) ∧
    (kMaxRecursion ≤ count + 1 → contextScopeEnter count = none) := by
  constructor
  · intro h
    refine ⟨?_, rfl⟩
    unfold contextScopeEnter contextUp
    simp [h]
  · intro h
    unfold contextScopeEnter contextUp
    simp [Nat.not_lt.mpr h]

/-- Witness for C8: counter 2 round-trips; the entry from counter 4 is
fatal. -/
theorem contextScope_guard_witness :
    (2 + 1 < kMaxRecursion ∧
      contextScopeEnter 2 = some (2 + 1) ∧ contextScopeExit (2 + 1) = 2) ∧
    (kMaxRecursion ≤ 4 + 1 ∧ contextScopeEnter 4 = none) :=
  ⟨⟨by decide, (contextScope_guard 2).1 (by decide)⟩,
   ⟨by decide, (contextScope_guard 4).2 (by decide)⟩⟩

/-- C4: after `MacroAssembler::EmitLiteralPool` (any emit option) the
pool's reported size is 0, the pool holds no literals, the manager
checkpoint is back at the sentinel `Label::kMaxOffset`, and each
emitted literal's deletion policy was applied: placement-deleted
literals are deleted, pool-destruction literals are retained until pool
destruction, and caller-owned literals end up in neither list. -/
theorem emitLiteralPool_flushes (s : MState) (option : EmitOption)
    (hInv : poolSizeInv s.litMgr.pool)
    (hpos : ∀ l ∈ s.litMgr.pool.literals, 0 < l.size) :
    (s.EmitLiteralPool option).litMgr.pool.size = 0 ∧
    (s.EmitLiteralPool option).litMgr.pool.literals = [] ∧
    (s.EmitLiteralPool option).litMgr.checkpoint = kMaxOffset ∧
    (s.EmitLiteralPool option).litMgr.pool.keepUntilDelete =
      s.litMgr.pool.keepUntilDelete ++
        s.litMgr.pool.literals.filter
          (fun l => l.deletionPolicy = DeletionPolicy.kDeletedOnPoolDestruction) ∧
    (s.EmitLiteralPool option).litMgr.pool.deleted =
      s.litMgr.pool.deleted ++
        s.litMgr.pool.literals.filter
          (fun l => l.deletionPolicy = DeletionPolicy.kDeletedOnPlacementByPool) := by
  have hmgr : (s.EmitLiteralPool option).litMgr =
      ((s.EmitLiteralPoolHere option).litMgr).ResetCheckpoint := rfl
  by_cases hsz : 0 < s.litMgr.pool.size
  · rw [hmgr, emitLiteralPoolHere_litMgr_pos s option hsz]
    simp [LiteralPoolManager.ResetCheckpoint, LiteralPool.Clear]
  · have h0 : s.litMgr.pool.size = 0 := Nat.eq_zero_of_not_pos hsz
    have hnil := literals_nil_of_size_zero _ hInv hpos h0
    have hhere : s.EmitLiteralPoolHere option = s := by
      unfold MState.EmitLiteralPoolHere
      rw [if_neg hsz]
    rw [hmgr, hhere]
    simp [LiteralPoolManager.ResetCheckpoint, hnil, h0]

/-- Witness for C4 at a one-literal pool. -/
theorem emitLiteralPool_flushes_witness :
    (poolSizeInv ⟨4, [⟨4, 0, 4000, 4096, .kDeletedOnPlacementByPool, []⟩], [], []⟩ ∧
      (∀ l ∈ ([⟨4, 0, 4000, 4096, .kDeletedOnPlacementByPool, []⟩] :
          List RawLiteral), 0 < l.size)) ∧
    ((MState.EmitLiteralPool
        ⟨true, 0, [],
          ⟨⟨4, [⟨4, 0, 4000, 4096, .kDeletedOnPlacementByPool, []⟩], [], []⟩, 500⟩,
          kMaxOffset, 100, 0⟩ .kBranchRequired).litMgr.pool.size = 0 ∧
      (MState.EmitLiteralPool
        ⟨true, 0, [],
          ⟨⟨4, [⟨4, 0, 4000, 4096, .kDeletedOnPlacementByPool, []⟩], [], []⟩, 500⟩,
          kMaxOffset, 100, 0⟩ .kBranchRequired).litMgr.pool.literals = [] ∧
      (MState.EmitLiteralPool
        ⟨true, 0, [],
          ⟨⟨4, [⟨4, 0, 4000, 4096, .kDeletedOnPlacementByPool, []⟩], [], []⟩, 500⟩,
          kMaxOffset, 100, 0⟩ .kBranchRequired).litMgr.checkpoint = kMaxOffset ∧
      (MState.EmitLiteralPool
        ⟨true, 0, [],
          ⟨⟨4, [⟨4, 0, 4000, 4096, .kDeletedOnPlacementByPool, []⟩], [], []⟩, 500⟩,
          kMaxOffset, 100, 0⟩ .kBranchRequired).litMgr.pool.keepUntilDelete =
        [] ++ ([⟨4, 0, 4000, 4096, .kDeletedOnPlacementByPool, []⟩] :
            List RawLiteral).filter
          (fun l => l.deletionPolicy = DeletionPolicy.kDeletedOnPoolDestruction) ∧
      (MState.EmitLiteralPool
        ⟨true, 0, [],
          ⟨⟨4, [⟨4, 0, 4000, 4096, .kDeletedOnPlacementByPool, []⟩], [], []⟩, 500⟩,
          kMaxOffset, 100, 0⟩ .kBranchRequired).litMgr.pool.deleted =
        [] ++ ([⟨4, 0, 4000, 4096, .kDeletedOnPlacementByPool, []⟩] :
            List RawLiteral).filter
          (fun l => l.deletionPolicy = DeletionPolicy.kDeletedOnPlacementByPool)) :=
  ⟨⟨rfl, by decide⟩,
   emitLiteralPool_flushes
     ⟨true, 0, [],
       ⟨⟨4, [⟨4, 0, 4000, 4096, .kDeletedOnPlacementByPool, []⟩], [], []⟩, 500⟩,
       kMaxOffset, 100, 0⟩ .kBranchRequired rfl (by decide)⟩

/-- C10: `EmitLiteralPool` on an empty pool writes nothing to the code
buffer — no branch-around even under `kBranchRequired`, no alignment
padding, cursor unchanged, pool untouched — yet the manager checkpoint
is reset to the sentinel and the assembler checkpoint recomputed from
the managers. -/
theorem emitLiteralPool_empty_frame (s : MState) (option : EmitOption)
    (h : s.litMgr.pool.size = 0) :
    (s.EmitLiteralPool option).cursor = s.cursor ∧
    (s.EmitLiteralPool option).trace = s.trace ∧
    (s.EmitLiteralPool option).litMgr.pool = s.litMgr.pool ∧
    (s.EmitLiteralPool option).litMgr.checkpoint = kMaxOffset ∧
    (s.EmitLiteralPool option).checkpoint =
      min (s.EmitLiteralPool option).litMgr.GetCheckpoint
        (s.veneerCheckpoint - kMaxInstructionSizeInBytes) ∧
    (s.EmitLiteralPool option).veneerCheckpoint = s.veneerCheckpoint ∧
    (s.EmitLiteralPool option).emitCount = s.emitCount := by
  have hsz : ¬ 0 < s.litMgr.pool.size := by omega
  have hhere : s.EmitLiteralPoolHere option = s := by
    unfold MState.EmitLiteralPoolHere
    rw [if_neg hsz]
  have hfull : s.EmitLiteralPool option =
      MState.ComputeCheckpoint { s with litMgr := s.litMgr.ResetCheckpoint } := by
    unfold MState.EmitLiteralPool
    rw [hhere]
  rw [hfull]
  simp [MState.ComputeCheckpoint, LiteralPoolManager.ResetCheckpoint,
    LiteralPoolManager.GetCheckpoint]

/-- Witness for C10 at an empty pool with `kBranchRequired`. -/
theorem emitLiteralPool_empty_frame_witness :
    ((⟨true, 40, [MEvent.poolBranch], ⟨LiteralPool.empty, 500⟩, 900, 100, 3⟩ :
        MState).litMgr.pool.size = 0) ∧
    ((MState.EmitLiteralPool
        ⟨true, 40, [MEvent.poolBranch], ⟨LiteralPool.empty, 500⟩, 900, 100, 3⟩
        .kBranchRequired).cursor = 40 ∧
      (MState.EmitLiteralPool
        ⟨true, 40, [MEvent.poolBranch], ⟨LiteralPool.empty, 500⟩, 900, 100, 3⟩
        .kBranchRequired).trace = [MEvent.poolBranch] ∧
      (MState.EmitLiteralPool
        ⟨true, 40, [MEvent.poolBranch], ⟨LiteralPool.empty, 500⟩, 900, 100, 3⟩
        .kBranchRequired).litMgr.pool = LiteralPool.empty ∧
      (MState.EmitLiteralPool
        ⟨true, 40, [MEvent.poolBranch], ⟨LiteralPool.empty, 500⟩, 900, 100, 3⟩
        .kBranchRequired).litMgr.checkpoint = kMaxOffset ∧
      (MState.EmitLiteralPool
        ⟨true, 40, [MEvent.poolBranch], ⟨LiteralPool.empty, 500⟩, 900, 100, 3⟩
        .kBranchRequired).checkpoint =
        min (MState.EmitLiteralPool
          ⟨true, 40, [MEvent.poolBranch], ⟨LiteralPool.empty, 500⟩, 900, 100, 3⟩
          .kBranchRequired).litMgr.GetCheckpoint
          (900 - kMaxInstructionSizeInBytes) ∧
      (MState.EmitLiteralPool
        ⟨true, 40, [MEvent.poolBranch], ⟨LiteralPool.empty, 500⟩, 900, 100, 3⟩
        .kBranchRequired).veneerCheckpoint = 900 ∧
      (MState.EmitLiteralPool
        ⟨true, 40, [MEvent.poolBranch], ⟨LiteralPool.empty, 500⟩, 900, 100, 3⟩
        .kBranchRequired).emitCount = 3) :=
  ⟨rfl,
   emitLiteralPool_empty_frame
     ⟨true, 40, [MEvent.poolBranch], ⟨LiteralPool.empty, 500⟩, 900, 100, 3⟩
     .kBranchRequired rfl⟩

/-- C7: on T32 with a condition other than `al` and an operand shape on
which the IT prefix is not usable, the synthesizer reserves worst-case
space, emits a branch with the inverted condition to a fresh local
label, forces the wrapped instruction to encode unconditionally, and
binds the label immediately after it; the debug assertion checks that
the wrapped region did not exceed the reserved maximum size. -/
theorem itScope_deprecated (cond label regionSize : Nat) (h : cond ≠ al) :
    ITScopeRun true false cond label regionSize =
      ([ITEvent.ensureEmit (k16BitT32InstructionSizeInBytes +
          kMaxT32MacroInstructionSizeInBytes),
        ITEvent.emitB (negateCond cond) label,
        ITEvent.body al,
        ITEvent.bindLabel label],
       decide (regionSize ≤ kMaxT32MacroInstructionSizeInBytes)) ∧
    ((ITScopeRun true false cond label regionSize).2 = true ↔
      regionSize ≤ kMaxT32MacroInstructionSizeInBytes) := by
  constructor
  · unfold ITScopeRun ITScopeEnter ITScopeExit
    simp [h]
  · unfold ITScopeRun ITScopeEnter ITScopeExit
    simp [h]

theorem setLastBranch_cons₂ (a b : ForwardReference)
    (bs : List ForwardReference) :
    setLastBranch (a :: b :: bs) = a :: setLastBranch (b :: bs) := rfl

theorem setLastBranch_shape (b : ForwardReference)
    (bs : List ForwardReference) :
    ∃ c cs, setLastBranch (b :: bs) = c :: cs := by
  cases bs with
  | nil => exact ⟨_, _, rfl⟩
  | cons d ds => exact ⟨_, _, rfl⟩

theorem setLastBranch_idem :
    ∀ rs : List ForwardReference,
      setLastBranch (setLastBranch rs) = setLastBranch rs
  | [] => rfl
  | [_] => rfl
  | a :: b :: bs => by
    rw [setLastBranch_cons₂]
    obtain ⟨c, cs, hc⟩ := setLastBranch_shape b bs
    rw [hc, setLastBranch_cons₂ a c cs, ← hc, setLastBranch_idem (b :: bs)]

theorem setLastBranch_map :
    ∀ rs : List ForwardReference,
      (setLastBranch rs).map ForwardReference.checkpoint =
        rs.map ForwardReference.checkpoint
  | [] => rfl
  | [_] => rfl
  | a :: b :: bs => by
    rw [setLastBranch_cons₂]
    simp [setLastBranch_map (b :: bs)]

/-- C6: `VeneerPoolManager::AddLabel` is idempotent — a second
back-to-back call returns the veneer pool, the cached checkpoint, and
the label unchanged and triggers no recompute; the label is listed at
most once; the cached checkpoint becomes the minimum of its previous
value and the label's nearest forward-reference checkpoint; and the
global recompute fires exactly when that minimum tightened. -/
theorem addLabel_idempotent (vm : VeneerPoolManager) (label : Label)
    (h1 : label.inVeneerPool = false → label.id ∉ vm.labels)
    (h2 : label.inVeneerPool = true → vm.labels.count label.id ≤ 1) :
    (vm.AddLabel label).1.AddLabel (vm.AddLabel label).2.1 =
      ((vm.AddLabel label).1, (vm.AddLabel label).2.1, false) ∧
    (vm.AddLabel label).2.1.id = label.id ∧
    (vm.AddLabel label).1.labels.count label.id ≤ 1 ∧
    (vm.AddLabel label).1.checkpoint =
      min vm.checkpoint label.nearestRefCheckpoint ∧
    ((vm.AddLabel label).2.2 = true ↔
      label.nearestRefCheckpoint < vm.checkpoint) := by
  have hfst : vm.AddLabel label =
      (⟨vm.labels ++ (if label.inVeneerPool then [] else [label.id]),
        if label.nearestRefCheckpoint < vm.checkpoint then
          label.nearestRefCheckpoint
        else vm.checkpoint⟩,
       { label with
          inVeneerPool := true
          refs := setLastBranch label.refs
          checkpoint := label.nearestRefCheckpoint },
       decide (label.nearestRefCheckpoint < vm.checkpoint)) := by
    unfold VeneerPoolManager.AddLabel Label.setBackIsBranch
        Label.UpdateCheckpoint
    cases hiv : label.inVeneerPool <;>
      by_cases hlt : label.nearestRefCheckpoint < vm.checkpoint <;>
        (simp only [Label.nearestRefCheckpoint] at hlt;
         simp [hiv, hlt, Label.nearestRefCheckpoint, setLastBranch_map])
  refine ⟨?_, ?_, ?_, ?_, ?_⟩
  · rw [hfst]
    unfold VeneerPoolManager.AddLabel Label.setBackIsBranch
        Label.UpdateCheckpoint
    have hmin : ¬ ((if label.nearestRefCheckpoint < vm.checkpoint then
        label.nearestRefCheckpoint else vm.checkpoint) >
          label.nearestRefCheckpoint) := by
      split <;> omega
    simp only [Label.nearestRefCheckpoint] at hmin
    simp [Label.nearestRefCheckpoint, setLastBranch_map, setLastBranch_idem,
      hmin]
  · rw [hfst]
  · rw [hfst]
    cases hiv : label.inVeneerPool with
    | false =>
      have hnm := h1 hiv
      simp [hiv, List.count_append, List.count_eq_zero.mpr hnm]
    | true =>
      have hc := h2 hiv
      simpa [hiv] using hc
  · rw [hfst]
    dsimp only
    rw [Nat.min_def]
    split_ifs <;> omega
  · rw [hfst]
    simp

/-- Witness for C6: a label with one forward reference, not yet in the
veneer pool. -/
theorem addLabel_idempotent_witness :
    ((Label.inVeneerPool ⟨3, false, 0, false, kMaxOffset, [⟨640, false⟩]⟩ =
        false →
      Label.id ⟨3, false, 0, false, kMaxOffset, [⟨640, false⟩]⟩ ∉
        VeneerPoolManager.labels ⟨[], kMaxOffset⟩) ∧
     (Label.inVeneerPool ⟨3, false, 0, false, kMaxOffset, [⟨640, false⟩]⟩ =
        true →
      List.count
          (Label.id ⟨3, false, 0, false, kMaxOffset, [⟨640, false⟩]⟩)
          (VeneerPoolManager.labels ⟨[], kMaxOffset⟩) ≤ 1)) ∧
    ((VeneerPoolManager.AddLabel ⟨[], kMaxOffset⟩
        ⟨3, false, 0, false, kMaxOffset, [⟨640, false⟩]⟩).1.AddLabel
        (VeneerPoolManager.AddLabel ⟨[], kMaxOffset⟩
          ⟨3, false, 0, false, kMaxOffset, [⟨640, false⟩]⟩).2.1 =
      ((VeneerPoolManager.AddLabel ⟨[], kMaxOffset⟩
          ⟨3, false, 0, false, kMaxOffset, [⟨640, false⟩]⟩).1,
       (VeneerPoolManager.AddLabel ⟨[], kMaxOffset⟩
          ⟨3, false, 0, false, kMaxOffset, [⟨640, false⟩]⟩).2.1, false) ∧
     (VeneerPoolManager.AddLabel ⟨[], kMaxOffset⟩
        ⟨3, false, 0, false, kMaxOffset, [⟨640, false⟩]⟩).2.1.id = 3 ∧
     List.count 3
        (VeneerPoolManager.AddLabel ⟨[], kMaxOffset⟩
          ⟨3, false, 0, false, kMaxOffset, [⟨640, false⟩]⟩).1.labels ≤ 1 ∧
     (VeneerPoolManager.AddLabel ⟨[], kMaxOffset⟩
        ⟨3, false, 0, false, kMaxOffset, [⟨640, false⟩]⟩).1.checkpoint =
      min kMaxOffset
        (Label.nearestRefCheckpoint
          ⟨3, false, 0, false, kMaxOffset, [⟨640, false⟩]⟩) ∧
     ((VeneerPoolManager.AddLabel ⟨[], kMaxOffset⟩
          ⟨3, false, 0, false, kMaxOffset, [⟨640, false⟩]⟩).2.2 = true ↔
       Label.nearestRefCheckpoint
          ⟨3, false, 0, false, kMaxOffset, [⟨640, false⟩]⟩ < kMaxOffset)) :=
  ⟨⟨by decide, by decide⟩,
   addLabel_idempotent ⟨[], kMaxOffset⟩
     ⟨3, false, 0, false, kMaxOffset, [⟨640, false⟩]⟩
     (by decide) (by decide)⟩

theorem linkFold_getElem (jt : JumpTableBase) (isT32 : Bool) (loc : Nat) :
    ∀ (idxs : List Nat) (table : List Int) (i : Nat), i < table.length →
      (idxs.foldl (fun t j => jt.Link isT32 t j loc) table)[i]? =
        if i ∈ idxs then
          some (linkValue isT32 jt.entryBytes jt.branchLocation loc)
        else table[i]?
  | [], table, i, hi => by simp
  | j :: idxs, table, i, hi => by
    rw [List.foldl_cons]
    rw [linkFold_getElem jt isT32 loc idxs (jt.Link isT32 table j loc) i
      (by simpa [JumpTableBase.Link] using hi)]
    by_cases hij : i = j
    · subst hij
      by_cases hmem : i ∈ idxs
      · simp [hmem]
      · simp [hmem, JumpTableBase.Link, List.getElem?_set_self hi]
    · by_cases hmem : i ∈ idxs
      · simp [hmem, hij]
      · have hkeep : (jt.Link isT32 table j loc)[i]? = table[i]? := by
          simp [JumpTableBase.Link,
            List.getElem?_set_ne (fun h => hij h.symm)]
        simp [hmem, hij, hkeep]

/-- C9: `JumpTableBase::Finalize` binds the default label (at the
current cursor) when it was never explicitly bound, and links every
case whose presence bit was never set to the default label's location
with the shift-1 (T32) / shift-2 (A32) encoding, while slots whose
presence bit is set keep their previous contents. -/
theorem jumpTable_finalize (jt : JumpTableBase) (isT32 : Bool)
    (cursor : Nat) (table : List Int) (i : Nat)
    (hlen : table.length = jt.length) (hi : i < jt.length) :
    (jt.Finalize isT32 cursor table).1.defaultLabel.bound = true ∧
    (jt.defaultLabel.bound = false →
      (jt.Finalize isT32 cursor table).1.defaultLabel.location = cursor) ∧
    (jt.defaultLabel.bound = true →
      (jt.Finalize isT32 cursor table).1.defaultLabel = jt.defaultLabel) ∧
    (jt.presence.getD i false = false →
      (jt.Finalize isT32 cursor table).2[i]? =
        some (linkValue isT32 jt.entryBytes jt.branchLocation
          (jt.Finalize isT32 cursor table).1.defaultLabel.location)) ∧
    (jt.presence.getD i false = true →
      (jt.Finalize isT32 cursor table).2[i]? = table[i]?) := by
  have hi' : i < table.length := by omega
  have hmemT : jt.presence.getD i false = true →
      i ∉ (List.range jt.length).filter
        (fun k => !(jt.presence.getD k false)) := by
    intro hp hin
    rcases List.mem_filter.mp hin with ⟨-, hpred⟩
    rw [hp] at hpred
    simp at hpred
  have hmemF : jt.presence.getD i false = false →
      i ∈ (List.range jt.length).filter
        (fun k => !(jt.presence.getD k false)) := by
    intro hp
    exact List.mem_filter.mpr ⟨List.mem_range.mpr hi, by rw [hp]; rfl⟩
  cases hb : jt.defaultLabel.bound
  case false =>
    have hF : jt.Finalize isT32 cursor table =
        ({ jt with
            defaultLabel :=
              { jt.defaultLabel with bound := true, location := cursor }
            endLabel := { jt.endLabel with bound := true, location := cursor } },
         ((List.range jt.length).filter
             (fun k => !(jt.presence.getD k false))).foldl
           (fun t k =>
             JumpTableBase.Link
               { jt with
                  defaultLabel :=
                    { jt.defaultLabel with bound := true, location := cursor }
                  endLabel :=
                    { jt.endLabel with bound := true, location := cursor } }
               isT32 t k cursor)
           table) := by
      unfold JumpTableBase.Finalize
      rw [hb]
      rfl
    rw [hF]
    refine ⟨rfl, ?_, ?_, ?_, ?_⟩
    · intro _
      rfl
    · intro h
      exact nomatch h
    · intro hp
      rw [linkFold_getElem _ _ _ _ _ _ hi', if_pos (hmemF hp)]
    · intro hp
      rw [linkFold_getElem _ _ _ _ _ _ hi', if_neg (hmemT hp)]
  case true =>
    have hF : jt.Finalize isT32 cursor table =
        ({ jt with
            endLabel := { jt.endLabel with bound := true, location := cursor } },
         ((List.range jt.length).filter
             (fun k => !(jt.presence.getD k false))).foldl
           (fun t k =>
             JumpTableBase.Link
               { jt with
                  endLabel :=
                    { jt.endLabel with bound := true, location := cursor } }
               isT32 t k jt.defaultLabel.location)
           table) := by
      unfold JumpTableBase.Finalize
      rw [hb]
      rfl
    rw [hF]
    refine ⟨hb, ?_, ?_, ?_, ?_⟩
    · intro h
      exact nomatch h
    · intro _
      rfl
    · intro hp
      rw [linkFold_getElem _ _ _ _ _ _ hi', if_pos (hmemF hp)]
    · intro hp
      rw [linkFold_getElem _ _ _ _ _ _ hi', if_neg (hmemT hp)]

/-- Witness for C9: a 5-case T32 table whose case 3 was never bound is
linked to the (freshly bound) default label. -/
theorem jumpTable_finalize_witness :
    (([11, 22, 33, 44, 55] : List Int).length = 5 ∧ 3 < 5) ∧
    ((JumpTableBase.Finalize
        ⟨100, 40, 5, 1, [true, true, true, false, true],
          ⟨9, false, 0, false, kMaxOffset, []⟩,
          ⟨10, false, 0, false, kMaxOffset, []⟩⟩ true 60
        [11, 22, 33, 44, 55]).1.defaultLabel.bound = true ∧
      (Label.bound ⟨9, false, 0, false, kMaxOffset, []⟩ = false →
        (JumpTableBase.Finalize
          ⟨100, 40, 5, 1, [true, true, true, false, true],
            ⟨9, false, 0, false, kMaxOffset, []⟩,
            ⟨10, false, 0, false, kMaxOffset, []⟩⟩ true 60
          [11, 22, 33, 44, 55]).1.defaultLabel.location = 60) ∧
      (Label.bound ⟨9, false, 0, false, kMaxOffset, []⟩ = true →
        (JumpTableBase.Finalize
          ⟨100, 40, 5, 1, [true, true, true, false, true],
            ⟨9, false, 0, false, kMaxOffset, []⟩,
            ⟨10, false, 0, false, kMaxOffset, []⟩⟩ true 60
          [11, 22, 33, 44, 55]).1.defaultLabel =
          ⟨9, false, 0, false, kMaxOffset, []⟩) ∧
      (List.getD [true, true, true, false, true] 3 false = false →
        (JumpTableBase.Finalize
          ⟨100, 40, 5, 1, [true, true, true, false, true],
            ⟨9, false, 0, false, kMaxOffset, []⟩,
            ⟨10, false, 0, false, kMaxOffset, []⟩⟩ true 60
          [11, 22, 33, 44, 55]).2[3]? =
          some (linkValue true 1 40
            (JumpTableBase.Finalize
              ⟨100, 40, 5, 1, [true, true, true, false, true],
                ⟨9, false, 0, false, kMaxOffset, []⟩,
                ⟨10, false, 0, false, kMaxOffset, []⟩⟩ true 60
              [11, 22, 33, 44, 55]).1.defaultLabel.location)) ∧
      (List.getD [true, true, true, false, true] 3 false = true →
        (JumpTableBase.Finalize
          ⟨100, 40, 5, 1, [true, true, true, false, true],
            ⟨9, false, 0, false, kMaxOffset, []⟩,
            ⟨10, false, 0, false, kMaxOffset, []⟩⟩ true 60
          [11, 22, 33, 44, 55]).2[3]? =
          ([11, 22, 33, 44, 55] : List Int)[3]?)) :=
  ⟨⟨by decide, by decide⟩,
   jumpTable_finalize
     ⟨100, 40, 5, 1, [true, true, true, false, true],
       ⟨9, false, 0, false, kMaxOffset, []⟩,
       ⟨10, false, 0, false, kMaxOffset, []⟩⟩ true 60
     [11, 22, 33, 44, 55] 3 (by decide) (by decide)⟩

/-- C2: `GenerateInstruction` encodes speculatively via the raw encoder
callback; when the insertion is judged too far it rewinds the cursor to
its pre-emission value, invalidates the literal's last forward
reference, flushes the pool with a branch-around, and re-encodes
exactly once (two raw encode calls in total); otherwise the single
speculative encoding stands (one raw encode call) — there is no other
recovery path. -/
theorem generateInstruction_retry
    (emit : MState → RawLiteral → MState × RawLiteral)
    (hcount : ∀ (t : MState) (l : RawLiteral),
      ((emit t l).1).emitCount = t.emitCount + 1)
    (s : MState) (literal : RawLiteral) :
    ((emit s literal).1.litMgr.IsInsertTooFar (emit s literal).2
        (s.cursor + s.pcOffset) = false →
      s.GenerateInstruction emit literal =
        (emit s literal).1.RegisterLiteral (emit s literal).2 ∧
      (s.GenerateInstruction emit literal).1.emitCount = s.emitCount + 1) ∧
    ((emit s literal).1.litMgr.IsInsertTooFar (emit s literal).2
        (s.cursor + s.pcOffset) = true →
      s.GenerateInstruction emit literal =
        (emit
          (MState.EmitLiteralPool
            { (emit s literal).1 with
                cursor := s.cursor
                trace := (emit s literal).1.trace ++ [MEvent.rewind s.cursor] }
            .kBranchRequired)
          ((emit s literal).2.InvalidateLastForwardReference)).1.RegisterLiteral
          (emit
            (MState.EmitLiteralPool
              { (emit s literal).1 with
                  cursor := s.cursor
                  trace := (emit s literal).1.trace ++ [MEvent.rewind s.cursor] }
              .kBranchRequired)
            ((emit s literal).2.InvalidateLastForwardReference)).2 ∧
      MState.cursor
        { (emit s literal).1 with
            cursor := s.cursor
            trace := (emit s literal).1.trace ++ [MEvent.rewind s.cursor] } =
        s.cursor ∧
      (s.GenerateInstruction emit literal).1.emitCount = s.emitCount + 2) := by
  have h1 := hcount s literal
  constructor
  · intro hfar
    have heq : s.GenerateInstruction emit literal =
        (emit s literal).1.RegisterLiteral (emit s literal).2 := by
      simp [MState.GenerateInstruction, hfar]
    refine ⟨heq, ?_⟩
    rw [heq, registerLiteral_emitCount, h1]
  · intro hfar
    have heq : s.GenerateInstruction emit literal =
        (emit
          (MState.EmitLiteralPool
            { (emit s literal).1 with
                cursor := s.cursor
                trace := (emit s literal).1.trace ++ [MEvent.rewind s.cursor] }
            .kBranchRequired)
          ((emit s literal).2.InvalidateLastForwardReference)).1.RegisterLiteral
          (emit
            (MState.EmitLiteralPool
              { (emit s literal).1 with
                  cursor := s.cursor
                  trace := (emit s literal).1.trace ++ [MEvent.rewind s.cursor] }
              .kBranchRequired)
            ((emit s literal).2.InvalidateLastForwardReference)).2 := by
      simp [MState.GenerateInstruction, hfar]
    refine ⟨heq, rfl, ?_⟩
    rw [heq, registerLiteral_emitCount, hcount, emitLiteralPool_emitCount]
    dsimp only
    omega

/-- Sample raw-encoder callback: appends one 4-byte instruction and
counts the encode call. -/
def sampleEmit (t : MState) (l : RawLiteral) : MState × RawLiteral :=
  ({ t with cursor := t.cursor + 4, emitCount := t.emitCount + 1 }, l)

/-- Witness for C2 on both paths: a reachable literal is encoded once; a
too-far literal triggers exactly one retry. -/
theorem generateInstruction_retry_witness :
    (∀ (t : MState) (l : RawLiteral),
      ((sampleEmit t l).1).emitCount = t.emitCount + 1) ∧
    ((sampleEmit
        ⟨true, 0, [], ⟨LiteralPool.empty, kMaxOffset⟩, kMaxOffset, 1000, 0⟩
        ⟨4, kMaxOffset, 4000, 4096, .kDeletedOnPlacementByPool, [4000]⟩).1.litMgr.IsInsertTooFar
        (sampleEmit
          ⟨true, 0, [], ⟨LiteralPool.empty, kMaxOffset⟩, kMaxOffset, 1000, 0⟩
          ⟨4, kMaxOffset, 4000, 4096, .kDeletedOnPlacementByPool, [4000]⟩).2
        (0 + 4) = false ∧
      (MState.GenerateInstruction sampleEmit
        ⟨true, 0, [], ⟨LiteralPool.empty, kMaxOffset⟩, kMaxOffset, 1000, 0⟩
        ⟨4, kMaxOffset, 4000, 4096, .kDeletedOnPlacementByPool, [4000]⟩).1.emitCount =
        0 + 1) ∧
    ((sampleEmit
        ⟨true, 0, [], ⟨LiteralPool.empty, kMaxOffset⟩, kMaxOffset, 1000, 7⟩
        ⟨4, kMaxOffset, 7, 8, .kDeletedOnPlacementByPool, [7]⟩).1.litMgr.IsInsertTooFar
        (sampleEmit
          ⟨true, 0, [], ⟨LiteralPool.empty, kMaxOffset⟩, kMaxOffset, 1000, 7⟩
          ⟨4, kMaxOffset, 7, 8, .kDeletedOnPlacementByPool, [7]⟩).2
        (0 + 4) = true ∧
      (MState.GenerateInstruction sampleEmit
        ⟨true, 0, [], ⟨LiteralPool.empty, kMaxOffset⟩, kMaxOffset, 1000, 7⟩
        ⟨4, kMaxOffset, 7, 8, .kDeletedOnPlacementByPool, [7]⟩).1.emitCount =
        7 + 2) :=
  ⟨fun t l => rfl,
   ⟨by decide,
    ((generateInstruction_retry sampleEmit (fun t l => rfl)
        ⟨true, 0, [], ⟨LiteralPool.empty, kMaxOffset⟩, kMaxOffset, 1000, 0⟩
        ⟨4, kMaxOffset, 4000, 4096, .kDeletedOnPlacementByPool, [4000]⟩).1
      (by decide)).2⟩,
   ⟨by decide,
    ((generateInstruction_retry sampleEmit (fun t l => rfl)
        ⟨true, 0, [], ⟨LiteralPool.empty, kMaxOffset⟩, kMaxOffset, 1000, 7⟩
        ⟨4, kMaxOffset, 7, 8, .kDeletedOnPlacementByPool, [7]⟩).2
      (by decide)).2.2⟩⟩

/-- Witness for C7 with condition `eq`, label 7, and a 4-byte wrapped
region. -/
theorem itScope_deprecated_witness :
    ((0 : Nat) ≠ al) ∧
    (ITScopeRun true false 0 7 4 =
      ([ITEvent.ensureEmit (k16BitT32InstructionSizeInBytes +
          kMaxT32MacroInstructionSizeInBytes),
        ITEvent.emitB (negateCond 0) 7,
        ITEvent.body al,
        ITEvent.bindLabel 7],
       decide (4 ≤ kMaxT32MacroInstructionSizeInBytes)) ∧
      ((ITScopeRun true false 0 7 4).2 = true ↔
        4 ≤ kMaxT32MacroInstructionSizeInBytes)) :=
  ⟨by decide, itScope_deprecated 0 7 4 (by decide)⟩

end Vixl
